import Mathlib

/-!
Verification development for the exact-in exit handler
(`src/services/balancer/pools/exits/handlers/exact-in-exit.handler.ts`).

The handler is embedded shallowly: the external Balancer SDK, the ethers
library and the transaction builder are modelled as an explicit environment
of (possibly failing) functions, JavaScript exceptions become `Except String`,
the handler's single mutable field `lastExitRes` becomes an explicit
`HandlerState` threaded through the functions, and every call into an
external dependency is recorded in a trace of `SdkCall` events so that
"never invokes X" properties can be stated.

Machine integers do not occur: on-chain amounts are ethers `BigNumber`s
(arbitrary-precision), embedded as `Int`.
-/

/-! ## Data model -/

/-- Token metadata from the provided token map (`TokenInfo` of
`@/types/TokenList`); only the fields the handler reads are embedded. -/
structure TokenInfo where
  address : String
  decimals : Nat
  deriving DecidableEq, Repr

/-- A token of the pool's token tree; `decimals` is optional there
(the handler falls back to 18). -/
structure PoolToken where
  address : String
  decimals : Option Nat
  deriving DecidableEq, Repr

/-- The pool stored in the handler's `pool` ref; only the fields the
handler reads are embedded (`id`, `address`, and the token tree). -/
structure Pool where
  id : String
  address : String
  tokens : List PoolToken
  deriving DecidableEq, Repr

/-- One requested output of the exit (`amountsOut` entries of `ExitParams`). -/
structure AmountOut where
  address : String
  value : String
  deriving DecidableEq, Repr

/-- `ExitParams`: the per-call immutable input of `queryExit`/`exit`.
`exiterAddress` stands for the result of `signer.getAddress()`; the token
map is an insertion-ordered association list, as a JS object is. -/
structure ExitParams where
  exiterAddress : String
  tokenInfo : List (String × TokenInfo)
  bptIn : String
  slippageBsp : Nat
  amountsOut : List AmountOut
  deriving DecidableEq, Repr

/-- `attributes.exitPoolRequest` of the SDK response. -/
structure ExitPoolRequest where
  assets : List String
  deriving DecidableEq, Repr

/-- `attributes` of the SDK response. -/
structure ExitAttributes where
  exitPoolRequest : ExitPoolRequest
  deriving DecidableEq, Repr

/-- The SDK's `buildExitExactBPTIn` response (`ExitExactInResponse`):
transaction target, encoded call data, request attributes and the raw
expected output amounts (ethers `BigNumber` values, embedded as `Int`).
The source's `to` field is named `toAddr` (`to` is a Lean keyword). -/
structure ExitExactInResponse where
  toAddr : String
  data : String
  attributes : ExitAttributes
  expectedAmountsOut : List Int
  deriving DecidableEq, Repr

/-- `QueryOutput` of `queryExit`: normalized amounts keyed by address
(insertion-ordered association list, as the JS object is), the price impact
and the readiness flag.  The source wraps the formatted price impact in
`Number(...)`; the decimal string before that conversion is kept here. -/
structure QueryOutput where
  amountsOut : List (String × String)
  priceImpact : String
  txReady : Bool
  deriving DecidableEq, Repr

/-- The response of the transaction submission service. -/
structure TransactionResponse where
  hash : String
  deriving DecidableEq, Repr

/-- The handler instance's only mutable state: the `lastExitRes` field. -/
structure HandlerState where
  lastExitRes : Option ExitExactInResponse
  deriving DecidableEq, Repr

/-- Trace events: one per call into an external dependency
(`pools.find`, `buildExitExactBPTIn`, `calcPriceImpact`,
`sendTransaction`, `captureBalancerException`). -/
inductive SdkCall where
  | findPool (poolId : String)
  | build (exiter : String) (evmBptIn : Int) (slippage : String)
      (shouldUnwrapNativeAsset : Bool) (singleTokenMaxOut : Option String)
  | calcImpact (amountsIn : List Int) (evmBptIn : Int)
  | send (toAddr : String) (data : String)
  | capture (msg : String)
  deriving DecidableEq, Repr

/-- Whether a trace event is a call to the SDK transaction builder. -/
def SdkCall.isBuild : SdkCall → Bool
  | .build _ _ _ _ _ => true
  | _ => false

/-- Whether a trace event is a call to the transaction submission service. -/
def SdkCall.isSend : SdkCall → Bool
  | .send _ _ => true
  | _ => false

/-- The pool handle returned by the registry (`PoolWithMethods`): the two
SDK capabilities the handler uses, each of which may throw. -/
structure SdkPool where
  buildExitExactBPTIn : String → Int → String → Bool → Option String →
    Except String ExitExactInResponse
  calcPriceImpact : List Int → Int → Bool → Except String Int

/-- The external environment: the pool registry (which may throw or return
no handle), the ethers address checksummer `getAddress`, and the
transaction submission service. -/
structure SdkEnv where
  findPool : String → Except String (Option SdkPool)
  getAddress : String → String
  sendTransaction : String → String → Except String TransactionResponse

/-! ## Character / digit helpers

`Nat.digits` and `String.toLower` of the library are defined by
well-founded recursion and do not reduce in the kernel, so structurally
recursive (fuel-based) equivalents are defined here and related to
`Nat.digits` in the proofs below. -/

/-- The character of a decimal digit, as ethers/JS produce it. -/
def digitChar (d : Nat) : Char := Char.ofNat (48 + d)

/-- The numeric value of a decimal digit character. -/
def charVal (c : Char) : Nat := c.toNat - 48

/-- Value of a big-endian decimal digit string. -/
def digitsVal (l : List Char) : Nat := l.foldl (fun a c => a * 10 + charVal c) 0

/-- Little-endian decimal digits of `n`, with explicit fuel. -/
def natDigitsRev : Nat → Nat → List Nat
  | 0, _ => []
  | fuel + 1, n => if n = 0 then [] else n % 10 :: natDigitsRev fuel (n / 10)

/-- Decimal representation of `n` as a character list (`BigNumber.toString`). -/
def natToChars (n : Nat) : List Char :=
  if n = 0 then ['0'] else ((natDigitsRev n n).map digitChar).reverse

/-- Lower-casing of a string via its character list (kernel-reducible
equivalent of `String.toLower`). -/
def lowerStr (s : String) : String := String.mk (s.data.map Char.toLower)

/-- Strip trailing `'0'` characters (the trim loop of `parseFixed` and the
trailing-zero regex group of `formatFixed`). -/
def stripTrailingZeros (l : List Char) : List Char :=
  (l.reverse.dropWhile (fun c => c == '0')).reverse

/-- `String.prototype.split('.')` on a character list. -/
def splitOnDot : List Char → List (List Char)
  | [] => [[]]
  | c :: rest =>
    if c = '.' then [] :: splitOnDot rest
    else
      match splitOnDot rest with
      | [] => [[c]]
      | g :: gs => (c :: g) :: gs

/-! ## Fixed-point decimal conversion

Embedding of `parseFixed` / `formatFixed` of `@ethersproject/bignumber`
(the library functions the handler calls at lines 73, 108, 142 and 165 of
the source).  A thrown ethers error becomes `none`. -/

/-- The sign-stripped part of `parseFixed(value, decimals)`.
Follows the ethers v5 algorithm: validate against `^[0-9.]+$` (the sign
was already stripped), reject a bare `"."` and multiple decimal points,
default the whole and fractional parts to `"0"`, trim trailing zeros of
the fraction, reject a fraction longer than `decimals`, right-pad the
fraction to `decimals` digits and combine. -/
def parseFixedBody (body : List Char) (decimals : Nat) : Option Int :=
  if body.isEmpty then none
  else if !(body.all fun c => c.isDigit || c == '.') then none
  else if body == ['.'] then none
  else
    let comps := splitOnDot body
    if 2 < comps.length then none
    else
      let whole0 := comps.headD []
      let fraction0 := comps.getD 1 []
      let whole := if whole0.isEmpty then ['0'] else whole0
      let fraction1 := if fraction0.isEmpty then ['0'] else fraction0
      let fraction2 := stripTrailingZeros fraction1
      if decimals < fraction2.length then none
      else
        let fraction3 := if fraction2.isEmpty then ['0'] else fraction2
        let fraction := fraction3 ++ List.replicate (decimals - fraction3.length) '0'
        some ((digitsVal whole : Int) * ((10 ^ decimals : Nat) : Int) + (digitsVal fraction : Int))

/-- `parseFixed(value, decimals)` on the character list of the value:
strip an optional leading `'-'`, parse the body, and negate at the end
(as the ethers code multiplies the wei value by minus one at the end). -/
def parseFixedChars (cs : List Char) (decimals : Nat) : Option Int :=
  let negative := cs.head? == some '-'
  let body := if negative then cs.tail else cs
  (parseFixedBody body decimals).map fun wei => if negative then -wei else wei

/-- `parseFixed(value, decimals)`: decimal string to fixed-point integer
(a thrown ethers error is `none`). -/
def parseFixed (value : String) (decimals : Nat) : Option Int :=
  parseFixedChars value.data decimals

/-- The fractional part of `formatFixed`: the value below the point,
left-padded with zeros to `decimals` digits, with trailing zeros stripped
keeping at least one digit (the regex group of the ethers code). -/
def formatFrac (F decimals : Nat) : List Char :=
  let fracChars0 := natToChars F
  let fracPadded := List.replicate (decimals - fracChars0.length) '0' ++ fracChars0
  let stripped := stripTrailingZeros fracPadded
  if stripped.isEmpty then ['0'] else stripped

/-- `formatFixed(value, decimals)` as a character list.
Follows the ethers v5 algorithm: split `|value|` by `10 ^ decimals`,
format the fractional part with `formatFrac`, and join as
`whole.fraction` with the sign in front. -/
def formatFixedChars (value : Int) (decimals : Nat) : List Char :=
  let M : Nat := 10 ^ decimals
  let negative := value < 0
  let n := value.natAbs
  (if negative then ['-'] else []) ++ natToChars (n / M) ++ '.' :: formatFrac (n % M) decimals

/-- `formatFixed(value, decimals)`: fixed-point integer to decimal string. -/
def formatFixed (value : Int) (decimals : Nat) : String :=
  String.mk (formatFixedChars value decimals)

/-! ## Address utilities

These live in `@/lib/utils`, `@/composables/usePoolHelpers` and
`@/constants/tokens` of the repository, which are not part of the sources
under verification; they are modelled from the spec. -/

/-- The chain's native-asset marker address (`NATIVE_ASSET_ADDRESS`). -/
def NATIVE_ASSET_ADDRESS : String := "0xEeeeeEeeeEeEeeEeEeEeeEEEeeeeEeeeeeeeEEeE"

/-- The zero address used as the SOR placeholder for the native asset. -/
def AddressZero : String := "0x0000000000000000000000000000000000000000"

/-- Modelled from the spec: address equality is case-insensitive throughout
the address handling (addresses are hex strings whose letter case only
carries the checksum). -/
def isSameAddress (a b : String) : Bool := lowerStr a == lowerStr b

/-- Modelled from the spec: "Locates the requested output token's metadata
in the provided token map" — lookup by address in the token map. -/
def selectByAddress (m : List (String × TokenInfo)) (addr : String) : Option TokenInfo :=
  (m.find? fun kv => isSameAddress kv.1 addr).map Prod.snd

/-- Modelled from the spec: removes the given address from an address list
(used to drop the pool's own BPT address from the SDK asset list). -/
def removeAddress (addr : String) (addresses : List String) : List String :=
  addresses.filter fun a => !(isSameAddress a addr)

/-- Modelled from the spec: position of an address in an address list,
absent when the address does not occur. -/
def indexOfAddress (addresses : List String) (addr : String) : Option Nat :=
  addresses.findIdx? fun a => isSameAddress a addr

/-- Modelled from the spec: address normalization for the SOR/SDK call —
the native-asset marker is replaced by the zero address, any other address
is passed through. -/
def formatAddressForSor (addr : String) : String :=
  if isSameAddress addr NATIVE_ASSET_ADDRESS then AddressZero else addr

/-- Modelled from the spec: the flattened list of the pool's underlying
(non-BPT) tokens, against whose addresses the amounts map of a
multi-output exit is keyed. -/
def flatTokenTree (p : Pool) : List PoolToken := p.tokens

/-- Comma-separated quoted keys after the first, for `jsonStringifyKeys`. -/
def jsonStringifyKeysRest : List String → String
  | [] => ""
  | k :: ks => "," ++ "\"" ++ k ++ "\"" ++ jsonStringifyKeysRest ks

/-- `JSON.stringify(Object.keys(tokenInfo))`, as interpolated into the
token-not-found error message. -/
def jsonStringifyKeys : List String → String
  | [] => "[]"
  | k :: ks => "[" ++ "\"" ++ k ++ "\"" ++ jsonStringifyKeysRest ks ++ "]"

/-! ## The handler -/

namespace ExactInExitHandler

/-- The error message of `queryExit` when the registry yields no handle. -/
def poolNotFoundMsg (poolId : String) : String := "Failed to find pool: " ++ poolId

/-- The error message of `queryExit` when the first requested output token
is absent from the token map (line 65 of the source). -/
def tokenNotFoundMsg (addr : String) (tokenInfo : List (String × TokenInfo)) : String :=
  "Could not find exit token in pool tokens list: " ++ addr ++ " allTokens: " ++
    jsonStringifyKeys (tokenInfo.map Prod.fst)

/-- The generic construction error (`'Failed to construct exit.'`). -/
def noExitConstructedMsg : String := "Failed to construct exit."

/-- The price-impact error (`'Failed to calculate price impact.'`). -/
def priceImpactMsg : String := "Failed to calculate price impact."

/-- `getSdkPool`: resolve the pool handle from the registry; a thrown
error is reported to the exception sink and swallowed (`undefined`). -/
def getSdkPool (env : SdkEnv) (pool : Pool) : Option SdkPool × List SdkCall :=
  match env.findPool pool.id with
  | .ok p => (p, [.findPool pool.id])
  | .error e => (none, [.findPool pool.id, .capture e])

/-- The argument object of `setLastExitRes`. -/
structure BuildArgs where
  evmBptIn : Int
  exiter : String
  slippage : String
  shouldUnwrapNativeAsset : Bool
  singleTokenMaxOutAddress : Option String
  deriving Repr

/-- `setLastExitRes`: call the SDK transaction builder and store the
response in `lastExitRes`; a thrown error is reported to the exception
sink and swallowed, in which case the assignment never happens and the
state keeps its previous value. -/
def setLastExitRes (sdkPool : SdkPool) (args : BuildArgs) (st : HandlerState) :
    HandlerState × List SdkCall :=
  match sdkPool.buildExitExactBPTIn args.exiter args.evmBptIn args.slippage
      args.shouldUnwrapNativeAsset (args.singleTokenMaxOutAddress.map lowerStr) with
  | .ok res =>
    ({ lastExitRes := some res },
     [.build args.exiter args.evmBptIn args.slippage args.shouldUnwrapNativeAsset
        (args.singleTokenMaxOutAddress.map lowerStr)])
  | .error e =>
    (st,
     [.build args.exiter args.evmBptIn args.slippage args.shouldUnwrapNativeAsset
        (args.singleTokenMaxOutAddress.map lowerStr),
      .capture e])

/-- `getEvmPriceImpact`: call the SDK price-impact calculator; a thrown
error is reported to the exception sink and swallowed (`undefined`). -/
def getEvmPriceImpact (sdkPool : SdkPool) (expectedAmountsOut : List Int) (evmBptIn : Int) :
    Option Int × List SdkCall :=
  match sdkPool.calcPriceImpact expectedAmountsOut evmBptIn false with
  | .ok v => (some v, [.calcImpact expectedAmountsOut evmBptIn])
  | .error e => (none, [.calcImpact expectedAmountsOut evmBptIn, .capture e])

/-- `getSingleAmountOut`: the single-output amounts map — one entry, keyed
by the token-map metadata address, whose value is the raw amount at the
found index formatted at the token's own decimals.  An absent index
(`indexOfAddress` returned `-1`, or the amount list is too short) makes
the JS `formatFixed(undefined)` call throw; that is the `.error` case. -/
def getSingleAmountOut (amountsOut : List Int) (tokenOutIndex : Option Nat)
    (tokenOut : TokenInfo) : Except String (List (String × String)) :=
  match tokenOutIndex.bind amountsOut.get? with
  | none => .error "invalid BigNumber value"
  | some amountOut => .ok [(tokenOut.address, formatFixed amountOut tokenOut.decimals)]

/-- JS object update `amountsOut[realAddress] = scaledAmount` on an
insertion-ordered association list. -/
def recordSet (m : List (String × String)) (k v : String) : List (String × String) :=
  if m.any fun kv => kv.1 == k then
    m.map fun kv => if kv.1 == k then (k, v) else kv
  else m ++ [(k, v)]

/-- The `expectedAmountsOut.forEach((amount, i) => ...)` loop of
`getAmountsOut`: for each raw amount, find the pool token whose address
matches `tokensOut[i]` and record its checksummed address with the amount
formatted at the token's decimals (18 when unspecified); indices with no
matching pool token are skipped. -/
def getAmountsOutGo (getAddr : String → String) (allPoolTokens : List PoolToken) :
    List Int → List String → List (String × String) → List (String × String)
  | [], _, acc => acc
  | amount :: rest, ts, acc =>
    match ts.head? with
    | none => getAmountsOutGo getAddr allPoolTokens rest [] acc
    | some taddr =>
      match allPoolTokens.find? fun t => isSameAddress t.address taddr with
      | none => getAmountsOutGo getAddr allPoolTokens rest ts.tail acc
      | some token =>
        getAmountsOutGo getAddr allPoolTokens rest ts.tail
          (recordSet acc (getAddr token.address)
            (formatFixed amount (token.decimals.getD 18)))

/-- `getAmountsOut`: the multi-output amounts map. -/
def getAmountsOut (getAddr : String → String) (pool : Pool)
    (expectedAmountsOut : List Int) (tokensOut : List String) : List (String × String) :=
  getAmountsOutGo getAddr (flatTokenTree pool) expectedAmountsOut tokensOut []

/-- `queryExit`, lines 54-134 of the source, with the thrown JS errors as
`Except.error`, the mutable `lastExitRes` as explicit state and the
external calls traced. -/
def queryExit (env : SdkEnv) (pool : Pool) (params : ExitParams) (st : HandlerState) :
    Except String QueryOutput × HandlerState × List SdkCall :=
  let exiter := params.exiterAddress
  let slippage := toString params.slippageBsp
  let found := getSdkPool env pool
  let t1 := found.2
  match found.1 with
  | none => (.error (poolNotFoundMsg pool.id), st, t1)
  | some sdkPool =>
    match params.amountsOut.head? with
    | none => (.error "TypeError: Cannot read properties of undefined", st, t1)
    | some firstOut =>
      match selectByAddress params.tokenInfo firstOut.address with
      | none => (.error (tokenNotFoundMsg firstOut.address params.tokenInfo), st, t1)
      | some tokenOut =>
        let isSingleTokenExit := params.amountsOut.length == 1
        match parseFixed params.bptIn 18 with
        | none => (.error "invalid decimal value", st, t1)
        | some evmBptIn =>
          let tokenOutAddressForSor := formatAddressForSor tokenOut.address
          let singleTokenMaxOutAddress :=
            if isSingleTokenExit then some tokenOutAddressForSor else none
          let shouldUnwrapNativeAsset := isSameAddress tokenOut.address NATIVE_ASSET_ADDRESS
          let built := setLastExitRes sdkPool
            ⟨evmBptIn, exiter, slippage, shouldUnwrapNativeAsset, singleTokenMaxOutAddress⟩ st
          let st1 := built.1
          let t2 := built.2
          match st1.lastExitRes with
          | none => (.error noExitConstructedMsg, st1, t1 ++ t2)
          | some res =>
            let tokensOut := removeAddress pool.address res.attributes.exitPoolRequest.assets
            let expectedAmountsOut := res.expectedAmountsOut
            let impact := getEvmPriceImpact sdkPool expectedAmountsOut evmBptIn
            let t3 := impact.2
            match impact.1 with
            | none => (.error priceImpactMsg, st1, t1 ++ t2 ++ t3)
            | some evmPriceImpact =>
              let priceImpact := formatFixed evmPriceImpact 18
              if isSingleTokenExit then
                let tokenOutIndex := indexOfAddress tokensOut tokenOutAddressForSor
                match getSingleAmountOut expectedAmountsOut tokenOutIndex tokenOut with
                | .error e => (.error e, st1, t1 ++ t2 ++ t3)
                | .ok amounts =>
                  (.ok ⟨amounts, priceImpact, true⟩, st1, t1 ++ t2 ++ t3)
              else
                (.ok ⟨getAmountsOut env.getAddress pool expectedAmountsOut tokensOut,
                      priceImpact, true⟩, st1, t1 ++ t2 ++ t3)

/-- `exit`, lines 43-52 of the source: re-run `queryExit` (a thrown error
propagates), fail with the generic construction error when no pending
result exists, otherwise submit the pending transaction's target and
encoded data through the transaction builder. -/
def exit (env : SdkEnv) (pool : Pool) (params : ExitParams) (st : HandlerState) :
    Except String TransactionResponse × HandlerState × List SdkCall :=
  match queryExit env pool params st with
  | (.error e, st1, t1) => (.error e, st1, t1)
  | (.ok _, st1, t1) =>
    match st1.lastExitRes with
    | none => (.error noExitConstructedMsg, st1, t1)
    | some res =>
      match env.sendTransaction res.toAddr res.data with
      | .ok tx => (.ok tx, st1, t1 ++ [.send res.toAddr res.data])
      | .error e => (.error e, st1, t1 ++ [.send res.toAddr res.data])

end ExactInExitHandler

open ExactInExitHandler

/-! ## Concrete instances

Concrete pools, parameters and environments used to evaluate the handler
on closed inputs. -/

/-- A lowercase token address with 6 decimals. -/
def addrA : String := "0xaaaa000000000000000000000000000000000001"

/-- A second lowercase token address (18 decimals). -/
def addrB : String := "0xbbbb000000000000000000000000000000000002"

/-- An uppercase-hex spelling of `addrA` (same address, different case). -/
def addrAUp : String := "0xAAAA000000000000000000000000000000000001"

/-- A mixed-case (checksummed) spelling of `addrA`. -/
def addrAChk : String := "0xAaAa000000000000000000000000000000000001"

/-- The pool's own (BPT) address. -/
def poolAddr : String := "0xcccc000000000000000000000000000000000003"

/-- An address absent from every token map below. -/
def addrMissing : String := "0xdddd000000000000000000000000000000000004"

/-- Token metadata for `addrA` with 6 decimals. -/
def tokenA6 : TokenInfo := { address := addrA, decimals := 6 }

/-- Token metadata for `addrB` with 18 decimals. -/
def tokenB18 : TokenInfo := { address := addrB, decimals := 18 }

/-- A single-token pool. -/
def poolOne : Pool :=
  { id := "pool1", address := poolAddr, tokens := [{ address := addrA, decimals := some 6 }] }

/-- A two-token pool. -/
def poolTwo : Pool :=
  { id := "pool2", address := poolAddr,
    tokens := [{ address := addrA, decimals := some 6 },
               { address := addrB, decimals := some 18 }] }

/-- The SDK build response for the single-token pool: one asset, raw
expected amount `5000000` (i.e. `5.0` at 6 decimals). -/
def resOne : ExitExactInResponse :=
  { toAddr := "0xvault", data := "0xcalldata",
    attributes := { exitPoolRequest := { assets := [addrA] } },
    expectedAmountsOut := [5000000] }

/-- The SDK build response for the two-token pool: the asset list contains
the pool's own address (removed by the handler) followed by both tokens. -/
def resTwo : ExitExactInResponse :=
  { toAddr := "0xvault", data := "0xcalldata",
    attributes := { exitPoolRequest := { assets := [poolAddr, addrA, addrB] } },
    expectedAmountsOut := [5000000, 7000000000000000000] }

/-- A pool handle whose build and price-impact calls succeed. -/
def sdkPoolOk : SdkPool :=
  { buildExitExactBPTIn := fun _ _ _ _ _ => .ok resOne,
    calcPriceImpact := fun _ _ _ => .ok 0 }

/-- A pool handle for the two-token pool. -/
def sdkPoolTwo : SdkPool :=
  { buildExitExactBPTIn := fun _ _ _ _ _ => .ok resTwo,
    calcPriceImpact := fun _ _ _ => .ok 0 }

/-- A pool handle whose build call always throws. -/
def sdkPoolBuildThrows : SdkPool :=
  { buildExitExactBPTIn := fun _ _ _ _ _ => .error "SDK: buildExitExactBPTIn failed",
    calcPriceImpact := fun _ _ _ => .ok 0 }

/-- Environment: registry finds the single-token pool handle. -/
def envOk : SdkEnv :=
  { findPool := fun _ => .ok (some sdkPoolOk),
    getAddress := fun a => a,
    sendTransaction := fun _ _ => .ok { hash := "0xtxhash" } }

/-- Environment: registry finds the two-token pool handle. -/
def envTwo : SdkEnv :=
  { findPool := fun _ => .ok (some sdkPoolTwo),
    getAddress := fun a => a,
    sendTransaction := fun _ _ => .ok { hash := "0xtxhash" } }

/-- Environment: registry finds a handle whose build call throws. -/
def envBuildThrows : SdkEnv :=
  { findPool := fun _ => .ok (some sdkPoolBuildThrows),
    getAddress := fun a => a,
    sendTransaction := fun _ _ => .ok { hash := "0xtxhash" } }

/-- Environment: registry returns no handle (`undefined`). -/
def envNoPool : SdkEnv :=
  { findPool := fun _ => .ok none,
    getAddress := fun a => a,
    sendTransaction := fun _ _ => .ok { hash := "0xtxhash" } }

/-- Environment: the registry lookup itself throws. -/
def envFindThrows : SdkEnv :=
  { findPool := fun _ => .error "SDK: network error",
    getAddress := fun a => a,
    sendTransaction := fun _ _ => .ok { hash := "0xtxhash" } }

/-- Environment in which the checksummer maps `addrA` to its mixed-case
(checksummed) spelling `addrAChk`, as the real EIP-55 `getAddress` does
for a lowercase input. -/
def envChk : SdkEnv :=
  { findPool := fun _ => .ok (some sdkPoolOk),
    getAddress := fun a => if a = addrA then addrAChk else a,
    sendTransaction := fun _ _ => .ok { hash := "0xtxhash" } }

/-- Single-output exit parameters for `poolOne`: BPT in `"10.0"`, one
requested output token `addrA`. -/
def paramsOne : ExitParams :=
  { exiterAddress := "0xme", tokenInfo := [(addrA, tokenA6)], bptIn := "10.0",
    slippageBsp := 50, amountsOut := [{ address := addrA, value := "0" }] }

/-- Single-output parameters requesting `addrA` by its uppercase spelling,
with the token map storing the lowercase spelling. -/
def paramsUp : ExitParams :=
  { exiterAddress := "0xme", tokenInfo := [(addrA, tokenA6)], bptIn := "10.0",
    slippageBsp := 50, amountsOut := [{ address := addrAUp, value := "0" }] }

/-- Multi-output exit parameters for `poolTwo`. -/
def paramsTwo : ExitParams :=
  { exiterAddress := "0xme", tokenInfo := [(addrA, tokenA6), (addrB, tokenB18)],
    bptIn := "10.0", slippageBsp := 50,
    amountsOut := [{ address := addrA, value := "0" }, { address := addrB, value := "0" }] }

/-- Multi-output parameters whose first requested output is absent from
the token map while the second is present. -/
def paramsMissingFirst : ExitParams :=
  { exiterAddress := "0xme", tokenInfo := [(addrB, tokenB18)],
    bptIn := "10.0", slippageBsp := 50,
    amountsOut := [{ address := addrMissing, value := "0" },
                   { address := addrB, value := "0" }] }

/-- The fresh handler state (no pending exit result). -/
def st0 : HandlerState := { lastExitRes := none }


/-! ## Facts about the digit helpers -/

theorem charVal_digitChar : ∀ d : Nat, d < 10 → charVal (digitChar d) = d := by decide

theorem digitChar_isDigit : ∀ d : Nat, d < 10 → (digitChar d).isDigit = true := by decide

theorem digitChar_ne_dot : ∀ d : Nat, d < 10 → digitChar d ≠ '.' := by decide

theorem digitChar_ne_minus : ∀ d : Nat, d < 10 → digitChar d ≠ '-' := by decide

theorem natDigitsRev_eq_digits :
    ∀ (fuel n : Nat), n ≤ fuel → natDigitsRev fuel n = Nat.digits 10 n := by
  intro fuel
  induction fuel with
  | zero =>
    intro n hn
    have : n = 0 := Nat.le_zero.mp hn
    subst this
    simp [natDigitsRev]
  | succ f ih =>
    intro n hn
    by_cases h0 : n = 0
    · subst h0; simp [natDigitsRev]
    · have hdiv : n / 10 ≤ f := by
        have : n / 10 < n := Nat.div_lt_self (Nat.pos_of_ne_zero h0) (by norm_num)
        omega
      simp only [natDigitsRev, if_neg h0]
      rw [ih _ hdiv, ← Nat.digits_def' (by norm_num : (1:Nat) < 10) (Nat.pos_of_ne_zero h0)]

theorem foldl_digits_eq (ds : List Nat) : ∀ a : Nat,
    List.foldl (fun x d => x * 10 + d) a ds = a * 10 ^ ds.length + Nat.ofDigits 10 ds.reverse := by
  induction ds with
  | nil => intro a; simp [Nat.ofDigits]
  | cons d t ih =>
    intro a
    simp only [List.foldl_cons, ih, List.reverse_cons, Nat.ofDigits_append,
      List.length_cons, List.length_reverse, Nat.ofDigits_singleton]
    ring

theorem foldl_charVal_eq (ds : List Nat) : ∀ a : Nat, (∀ d ∈ ds, d < 10) →
    List.foldl (fun x c => x * 10 + charVal c) a (ds.map digitChar) =
      List.foldl (fun x d => x * 10 + d) a ds := by
  induction ds with
  | nil => intro a _; rfl
  | cons d t ih =>
    intro a h
    simp only [List.map_cons, List.foldl_cons]
    rw [charVal_digitChar d (h d (by simp))]
    exact ih _ fun x hx => h x (by simp [hx])

theorem digitsVal_natToChars (n : Nat) : digitsVal (natToChars n) = n := by
  by_cases h0 : n = 0
  · subst h0; rfl
  · unfold natToChars
    rw [if_neg h0, natDigitsRev_eq_digits n n le_rfl, ← List.map_reverse]
    unfold digitsVal
    rw [foldl_charVal_eq _ 0 fun d hd =>
      Nat.digits_lt_base (by norm_num) (List.mem_reverse.mp hd)]
    rw [foldl_digits_eq]
    simp [Nat.ofDigits_digits]

theorem natToChars_length_le {n k : Nat} (hk : 0 < k) (hn : n < 10 ^ k) :
    (natToChars n).length ≤ k := by
  by_cases h0 : n = 0
  · subst h0; simpa [natToChars] using hk
  · unfold natToChars
    rw [if_neg h0, List.length_reverse, List.length_map, natDigitsRev_eq_digits n n le_rfl]
    by_contra hlen
    push_neg at hlen
    have h1 : 10 ^ (Nat.digits 10 n).length ≤ 10 * n :=
      Nat.base_pow_length_digits_le 10 n (by norm_num) h0
    have h2 : (10:Nat) ^ (k+1) ≤ 10 ^ (Nat.digits 10 n).length :=
      Nat.pow_le_pow_right (by norm_num) hlen
    have h3 : (10:Nat) ^ (k+1) = 10 * 10 ^ k := by ring
    omega

theorem natToChars_mem {n : Nat} {c : Char} (hc : c ∈ natToChars n) :
    ∃ d, d < 10 ∧ c = digitChar d := by
  unfold natToChars at hc
  by_cases h0 : n = 0
  · rw [if_pos h0] at hc
    simp only [List.mem_singleton] at hc
    exact ⟨0, by norm_num, by rw [hc]; rfl⟩
  · rw [if_neg h0, List.mem_reverse, List.mem_map] at hc
    obtain ⟨d, hd, rfl⟩ := hc
    refine ⟨d, ?_, rfl⟩
    rw [natDigitsRev_eq_digits n n le_rfl] at hd
    exact Nat.digits_lt_base (by norm_num) hd

theorem natToChars_ne_nil (n : Nat) : natToChars n ≠ [] := by
  unfold natToChars
  by_cases h0 : n = 0
  · simp [h0]
  · rw [if_neg h0]
    simp only [ne_eq, List.reverse_eq_nil_iff, List.map_eq_nil_iff]
    cases n with
    | zero => exact absurd rfl h0
    | succ m => simp [natDigitsRev]

theorem foldl_replicate_zeros : ∀ (t a : Nat),
    List.foldl (fun x c => x * 10 + charVal c) a (List.replicate t '0') = a * 10 ^ t := by
  intro t
  induction t with
  | zero => intro a; simp
  | succ s ih =>
    intro a
    simp only [List.replicate_succ, List.foldl_cons]
    rw [ih]
    have h0 : charVal '0' = 0 := rfl
    rw [h0]
    ring

theorem digitsVal_append_zeros (l : List Char) (t : Nat) :
    digitsVal (l ++ List.replicate t '0') = digitsVal l * 10 ^ t := by
  unfold digitsVal
  rw [List.foldl_append, foldl_replicate_zeros]

theorem digitsVal_leading_zeros (m : Nat) (l : List Char) :
    digitsVal (List.replicate m '0' ++ l) = digitsVal l := by
  unfold digitsVal
  rw [List.foldl_append, foldl_replicate_zeros]
  simp

/-! ## Facts about trailing-zero stripping and dot splitting -/

theorem stripTrailingZeros_spec (l : List Char) :
    l = stripTrailingZeros l ++
      List.replicate (l.reverse.takeWhile (fun c => c == '0')).length '0' := by
  have h1 : l.reverse.takeWhile (fun c => c == '0') ++
      l.reverse.dropWhile (fun c => c == '0') = l.reverse :=
    List.takeWhile_append_dropWhile _ _
  have h2 := congrArg List.reverse h1
  rw [List.reverse_append, List.reverse_reverse] at h2
  have h3 : (l.reverse.takeWhile (fun c => c == '0')).reverse =
      List.replicate (l.reverse.takeWhile (fun c => c == '0')).length '0' := by
    have h4 : l.reverse.takeWhile (fun c => c == '0') =
        List.replicate (l.reverse.takeWhile (fun c => c == '0')).length '0' :=
      List.eq_replicate_of_mem fun b hb => by simpa using List.mem_takeWhile_imp hb
    conv_lhs => rw [h4]
    rw [List.reverse_replicate]
  conv_lhs => rw [← h2]
  rw [h3]
  rfl

theorem head_dropWhile_false {p : Char → Bool} :
    ∀ {l : List Char} {a : Char}, (l.dropWhile p).head? = some a → p a = false := by
  intro l
  induction l with
  | nil => intro a h; simp at h
  | cons c t ih =>
    intro a h
    rw [List.dropWhile_cons] at h
    by_cases hc : p c
    · rw [if_pos hc] at h; exact ih h
    · rw [if_neg hc] at h
      simp only [List.head?_cons, Option.some.injEq] at h
      rw [← h]
      exact Bool.eq_false_iff.mpr hc

theorem dropWhile_idem (p : Char → Bool) (l : List Char) :
    (l.dropWhile p).dropWhile p = l.dropWhile p := by
  cases h : l.dropWhile p with
  | nil => simp
  | cons a t =>
    have ha : p a = false := head_dropWhile_false (by rw [h]; rfl)
    rw [List.dropWhile_cons, if_neg (by simp [ha])]

theorem stripTrailingZeros_idem (l : List Char) :
    stripTrailingZeros (stripTrailingZeros l) = stripTrailingZeros l := by
  unfold stripTrailingZeros
  rw [List.reverse_reverse, dropWhile_idem]

theorem stripTrailingZeros_replicate (t : Nat) :
    stripTrailingZeros (List.replicate t '0') = [] := by
  unfold stripTrailingZeros
  rw [List.reverse_replicate]
  have h : List.dropWhile (fun c => c == '0') (List.replicate t '0') = [] := by
    induction t with
    | zero => rfl
    | succ s ih =>
      rw [List.replicate_succ, List.dropWhile_cons, if_pos (by rfl)]
      exact ih
  rw [h]
  rfl

theorem mem_stripTrailingZeros {l : List Char} {c : Char}
    (h : c ∈ stripTrailingZeros l) : c ∈ l := by
  unfold stripTrailingZeros at h
  rw [List.mem_reverse] at h
  have h2 := List.dropWhile_subset (fun c => c == '0') h
  rwa [List.mem_reverse] at h2

theorem stripTrailingZeros_length_le (l : List Char) :
    (stripTrailingZeros l).length ≤ l.length := by
  conv_rhs => rw [stripTrailingZeros_spec l]
  rw [List.length_append]
  omega

theorem splitOnDot_no_dot : ∀ {l : List Char}, (∀ c ∈ l, c ≠ '.') → splitOnDot l = [l] := by
  intro l
  induction l with
  | nil => intro _; rfl
  | cons c t ih =>
    intro h
    have hc : c ≠ '.' := h c (by simp)
    unfold splitOnDot
    rw [if_neg hc, ih fun x hx => h x (by simp [hx])]

theorem splitOnDot_append : ∀ (a b : List Char), (∀ c ∈ a, c ≠ '.') →
    splitOnDot (a ++ '.' :: b) = a :: splitOnDot b := by
  intro a b
  induction a with
  | nil =>
    intro _
    simp only [List.nil_append]
    conv_lhs => rw [splitOnDot]
    rw [if_pos rfl]
  | cons c t ih =>
    intro h
    have hc : c ≠ '.' := h c (by simp)
    simp only [List.cons_append]
    conv_lhs => rw [splitOnDot]
    rw [if_neg hc, ih fun x hx => h x (by simp [hx])]

/-! ## The fixed-point round trip -/

theorem parseFixedBody_core (w f : List Char) (d : Nat)
    (hw : ∀ c ∈ w, ∃ k, k < 10 ∧ c = digitChar k) (hwne : w ≠ [])
    (hf : ∀ c ∈ f, ∃ k, k < 10 ∧ c = digitChar k) (hfne : f ≠ [])
    (hflen : (stripTrailingZeros f).length ≤ d) :
    parseFixedBody (w ++ '.' :: f) d =
      some ((digitsVal w * 10 ^ d + digitsVal (stripTrailingZeros f) *
        10 ^ (d - (stripTrailingZeros f).length) : Nat) : Int) := by
  obtain ⟨c0, w', rfl⟩ : ∃ c0 w', w = c0 :: w' := by
    cases w with
    | nil => exact absurd rfl hwne
    | cons a b => exact ⟨a, b, rfl⟩
  obtain ⟨c1, f', rfl⟩ : ∃ c1 f', f = c1 :: f' := by
    cases f with
    | nil => exact absurd rfl hfne
    | cons a b => exact ⟨a, b, rfl⟩
  have hall : ((c0 :: w') ++ '.' :: c1 :: f').all (fun c => c.isDigit || c == '.') = true := by
    rw [List.all_eq_true]
    intro c hc
    rcases List.mem_append.mp hc with hcw | hcf
    · obtain ⟨k, hk, rfl⟩ := hw c hcw
      simp [digitChar_isDigit k hk]
    · rcases List.mem_cons.mp hcf with rfl | hcf2
      · simp
      · obtain ⟨k, hk, rfl⟩ := hf c hcf2
        simp [digitChar_isDigit k hk]
  have hnedot : c0 ≠ '.' := by
    obtain ⟨k, hk, rfl⟩ := hw c0 (List.mem_cons_self _ _)
    exact digitChar_ne_dot k hk
  have hsplit : splitOnDot ((c0 :: w') ++ '.' :: c1 :: f') = [c0 :: w', c1 :: f'] := by
    rw [splitOnDot_append _ _ fun c hc => by
        obtain ⟨k, hk, rfl⟩ := hw c hc; exact digitChar_ne_dot k hk,
      splitOnDot_no_dot fun c hc => by
        obtain ⟨k, hk, rfl⟩ := hf c hc; exact digitChar_ne_dot k hk]
  have hneq : (((c0 :: w') ++ '.' :: c1 :: f') == ['.']) = false := by
    rw [beq_eq_false_iff_ne]
    intro hcon
    rw [List.cons_append] at hcon
    injection hcon with h1 h2
    exact hnedot h1
  unfold parseFixedBody
  rw [hsplit]
  rw [if_neg (by simp), if_neg (by rw [hall]; simp), if_neg (by rw [hneq]; simp)]
  rw [if_neg (by simp)]
  simp only [List.headD_cons, List.getD_cons_succ, List.getD_cons_zero,
    List.isEmpty_cons, Bool.false_eq_true, if_false]
  rw [if_neg (Nat.not_lt.mpr hflen)]
  by_cases hsf : stripTrailingZeros (c1 :: f') = []
  · rw [if_pos (by rw [hsf]; rfl)]
    rw [hsf]
    rw [digitsVal_append_zeros]
    have h0 : digitsVal ['0'] = 0 := rfl
    have h1 : digitsVal ([] : List Char) = 0 := rfl
    rw [h0, h1]
    push_cast
    ring_nf
  · rw [if_neg (by simp [hsf])]
    rw [digitsVal_append_zeros]
    push_cast
    ring_nf

theorem digitsVal_replicate (t : Nat) : digitsVal (List.replicate t '0') = 0 := by
  have h := digitsVal_append_zeros [] t
  simpa [digitsVal] using h

theorem formatFrac_mem {F d : Nat} {c : Char} (hc : c ∈ formatFrac F d) :
    ∃ k, k < 10 ∧ c = digitChar k := by
  simp only [formatFrac] at hc
  split at hc
  · simp only [List.mem_singleton] at hc
    exact ⟨0, by norm_num, by rw [hc]; rfl⟩
  · have h2 := mem_stripTrailingZeros hc
    rcases List.mem_append.mp h2 with h3 | h3
    · have h4 := List.eq_of_mem_replicate h3
      exact ⟨0, by norm_num, by rw [h4]; rfl⟩
    · exact natToChars_mem h3

theorem formatFrac_ne_nil (F d : Nat) : formatFrac F d ≠ [] := by
  simp only [formatFrac]
  split
  · simp
  · next h => simpa using h

theorem formatFrac_strip_val {F d : Nat} (hF : F < 10 ^ d) :
    (stripTrailingZeros (formatFrac F d)).length ≤ d ∧
    digitsVal (stripTrailingZeros (formatFrac F d)) *
      10 ^ (d - (stripTrailingZeros (formatFrac F d)).length) = F := by
  simp only [formatFrac]
  set f0 := natToChars F with hf0
  set fp := List.replicate (d - f0.length) '0' ++ f0 with hfp
  have hfpval : digitsVal fp = F := by
    rw [hfp, digitsVal_leading_zeros, hf0, digitsVal_natToChars]
  set sp := stripTrailingZeros fp with hsp
  have hdecomp : fp = sp ++
      List.replicate (fp.reverse.takeWhile (fun c => c == '0')).length '0' :=
    stripTrailingZeros_spec fp
  by_cases hempty : sp = []
  · rw [if_pos (by rw [hempty]; rfl)]
    have hF0 : F = 0 := by
      rw [← hfpval]
      conv_lhs => rw [hdecomp, hempty]
      rw [List.nil_append, digitsVal_replicate]
    have hstrip0 : stripTrailingZeros ['0'] = [] := rfl
    rw [hstrip0]
    refine ⟨by simp, ?_⟩
    have h1 : digitsVal ([] : List Char) = 0 := rfl
    rw [h1, hF0]
    ring
  · rw [if_neg (by simpa using hempty)]
    have hFne : F ≠ 0 := by
      intro hF0
      apply hempty
      have hf00 : f0 = ['0'] := by rw [hf0, hF0]; rfl
      have : fp = List.replicate ((d - f0.length) + 1) '0' := by
        rw [hfp, hf00, List.replicate_add, List.replicate_one]
      rw [hsp, this, stripTrailingZeros_replicate]
    have hd : 0 < d := by
      rcases Nat.eq_zero_or_pos d with h | h
      · rw [h] at hF
        simp at hF
        exact absurd hF hFne
      · exact h
    have hlen0 : f0.length ≤ d := by
      rw [hf0]
      exact natToChars_length_le hd hF
    have hfplen : fp.length = d := by
      rw [hfp]
      simp only [List.length_append, List.length_replicate]
      omega
    have hlensum := congrArg List.length hdecomp
    simp only [List.length_append, List.length_replicate] at hlensum
    have hsps : stripTrailingZeros sp = sp := by
      rw [hsp, stripTrailingZeros_idem]
    rw [hsps]
    have hsplen : sp.length ≤ d := by omega
    refine ⟨hsplen, ?_⟩
    have hval : digitsVal sp *
        10 ^ (fp.reverse.takeWhile (fun c => c == '0')).length = F := by
      rw [← hfpval]
      conv_rhs => rw [hdecomp]
      rw [digitsVal_append_zeros]
    have ht : (fp.reverse.takeWhile (fun c => c == '0')).length = d - sp.length := by
      omega
    rw [← ht, hval]

theorem parseFixedChars_minus (cs : List Char) (d : Nat) :
    parseFixedChars ('-' :: cs) d = (parseFixedBody cs d).map fun x => -x := by
  simp [parseFixedChars]

theorem parseFixedChars_of_head_ne_minus {cs : List Char} (d : Nat)
    (h : cs.head? ≠ some '-') : parseFixedChars cs d = parseFixedBody cs d := by
  have hb : (cs.head? == some '-') = false := beq_eq_false_iff_ne.mpr h
  simp [parseFixedChars, hb]

theorem parseFixedChars_formatFixedChars (v : Int) (d : Nat) :
    parseFixedChars (formatFixedChars v d) d = some v := by
  have hM : (0:Nat) < 10 ^ d := pow_pos (by norm_num) d
  have hFlt : v.natAbs % 10 ^ d < 10 ^ d := Nat.mod_lt _ hM
  have hWmem : ∀ c ∈ natToChars (v.natAbs / 10 ^ d), ∃ k, k < 10 ∧ c = digitChar k :=
    fun _ hc => natToChars_mem hc
  have hWne := natToChars_ne_nil (v.natAbs / 10 ^ d)
  have hfmem : ∀ c ∈ formatFrac (v.natAbs % 10 ^ d) d, ∃ k, k < 10 ∧ c = digitChar k :=
    fun _ hc => formatFrac_mem hc
  have hfne := formatFrac_ne_nil (v.natAbs % 10 ^ d) d
  obtain ⟨hlen, hval⟩ := formatFrac_strip_val hFlt
  have hcore := parseFixedBody_core (natToChars (v.natAbs / 10 ^ d))
    (formatFrac (v.natAbs % 10 ^ d) d) d hWmem hWne hfmem hfne hlen
  rw [hval, digitsVal_natToChars] at hcore
  have hWF : v.natAbs / 10 ^ d * 10 ^ d + v.natAbs % 10 ^ d = v.natAbs := by
    rw [Nat.mul_comm]
    exact Nat.div_add_mod _ _
  rw [hWF] at hcore
  by_cases hv : v < 0
  · have hfmt : formatFixedChars v d = '-' :: (natToChars (v.natAbs / 10 ^ d) ++ '.' ::
        formatFrac (v.natAbs % 10 ^ d) d) := by
      simp [formatFixedChars, hv]
    rw [hfmt, parseFixedChars_minus, hcore]
    simp only [Option.map_some']
    congr 1
    have h1 : ((v.natAbs : Int)) = -v := Int.ofNat_natAbs_of_nonpos (le_of_lt hv)
    rw [h1, neg_neg]
  · have hfmt : formatFixedChars v d = natToChars (v.natAbs / 10 ^ d) ++ '.' ::
        formatFrac (v.natAbs % 10 ^ d) d := by
      simp [formatFixedChars, hv]
    have hhead : (formatFixedChars v d).head? ≠ some '-' := by
      rw [hfmt]
      obtain ⟨c0, w', hw⟩ := List.exists_cons_of_ne_nil hWne
      rw [hw]
      simp only [List.cons_append, List.head?_cons]
      intro hcon
      have hc0 : c0 ∈ natToChars (v.natAbs / 10 ^ d) := by
        rw [hw]; exact List.mem_cons_self _ _
      obtain ⟨k, hk, hck⟩ := natToChars_mem hc0
      have : c0 = '-' := by injection hcon
      exact digitChar_ne_minus k hk (hck ▸ this)
    rw [parseFixedChars_of_head_ne_minus _ hhead, hfmt, hcore]
    congr 1
    exact Int.natAbs_of_nonneg (not_lt.mp hv)

theorem parseFixed_formatFixed (v : Int) (d : Nat) :
    parseFixed (formatFixed v d) d = some v := by
  unfold parseFixed formatFixed
  exact parseFixedChars_formatFixedChars v d

/-! ## Facts about the amounts-map construction -/

theorem isSameAddress_rfl (a : String) : isSameAddress a a = true := by
  simp [isSameAddress]

theorem recordSet_fresh (m : List (String × String)) (k v : String)
    (h : ∀ kv ∈ m, kv.1 ≠ k) : recordSet m k v = m ++ [(k, v)] := by
  have hc : (m.any fun kv => kv.1 == k) = false := by
    rw [List.any_eq_false]
    intro kv hkv
    simpa using h kv hkv
  unfold recordSet
  rw [hc]
  simp

theorem getAmountsOutGo_keys (getAddr : String → String) (flat : List PoolToken) :
    ∀ (es : List Int) (ts : List String) (acc : List (String × String)),
      (∀ a ∈ ts, ∃ t, flat.find? (fun u => isSameAddress u.address a) = some t ∧
        getAddr t.address = a) →
      ts.Nodup →
      (∀ a ∈ ts, ∀ kv ∈ acc, kv.1 ≠ a) →
      (getAmountsOutGo getAddr flat es ts acc).map Prod.fst =
        acc.map Prod.fst ++ ts.take es.length := by
  intro es
  induction es with
  | nil =>
    intro ts acc _ _ _
    simp [getAmountsOutGo]
  | cons e es ih =>
    intro ts acc hfind hnd hfresh
    cases ts with
    | nil =>
      simp only [getAmountsOutGo, List.head?_nil]
      rw [ih [] acc (by intro a ha; exact absurd ha (List.not_mem_nil a))
        List.nodup_nil (by intro a ha; exact absurd ha (List.not_mem_nil a))]
      simp
    | cons a ts' =>
      obtain ⟨t, hft, hga⟩ := hfind a (List.mem_cons_self _ _)
      simp only [getAmountsOutGo, List.head?_cons, List.tail_cons, hft]
      rw [hga]
      rw [recordSet_fresh _ _ _ fun kv hkv => hfresh a (List.mem_cons_self _ _) kv hkv]
      rw [ih ts' (acc ++ [(a, formatFixed e (t.decimals.getD 18))])
        (fun b hb => hfind b (List.mem_cons_of_mem _ hb))
        (List.Nodup.of_cons hnd)
        ?fresh]
      · simp only [List.map_append, List.map_cons, List.map_nil]
        rw [List.append_assoc]
        simp [List.take_succ_cons]
      case fresh =>
        intro b hb kv hkv
        rcases List.mem_append.mp hkv with hkv1 | hkv2
        · exact hfresh b (List.mem_cons_of_mem _ hb) kv hkv1
        · have : kv = (a, formatFixed e (t.decimals.getD 18)) := by simpa using hkv2
          rw [this]
          intro hcon
          have hab : a = b := hcon
          rw [hab] at hnd
          exact (List.nodup_cons.mp hnd).1 hb

theorem getAmountsOut_keys (getAddr : String → String) (pool : Pool) (es : List Int)
    (hfix : ∀ t ∈ flatTokenTree pool, getAddr t.address = t.address)
    (hcd : ∀ t ∈ flatTokenTree pool, ∀ u ∈ flatTokenTree pool,
      isSameAddress u.address t.address = true → u.address = t.address)
    (hnd : ((flatTokenTree pool).map PoolToken.address).Nodup)
    (hlen : es.length = (flatTokenTree pool).length) :
    (getAmountsOut getAddr pool es ((flatTokenTree pool).map PoolToken.address)).map Prod.fst
      = (flatTokenTree pool).map PoolToken.address := by
  unfold getAmountsOut
  rw [getAmountsOutGo_keys getAddr (flatTokenTree pool) es _ [] ?hfind hnd
    (by intro a _ kv hkv; exact absurd hkv (List.not_mem_nil kv))]
  · simp only [List.map_nil, List.nil_append]
    have hlen2 : es.length = ((flatTokenTree pool).map PoolToken.address).length := by
      rw [hlen, List.length_map]
    rw [hlen2, List.take_length]
  case hfind =>
    intro a ha
    rw [List.mem_map] at ha
    obtain ⟨t0, ht0, rfl⟩ := ha
    have hex : ((flatTokenTree pool).find?
        (fun u => isSameAddress u.address t0.address)).isSome := by
      rw [List.find?_isSome]
      exact ⟨t0, ht0, isSameAddress_rfl t0.address⟩
    obtain ⟨u, hu⟩ := Option.isSome_iff_exists.mp hex
    have hmem := List.mem_of_find?_eq_some hu
    have hp := List.find?_some hu
    have heq : u.address = t0.address := hcd t0 ht0 u hmem hp
    refine ⟨u, hu, ?_⟩
    rw [heq]
    exact hfix t0 ht0

theorem getSingleAmountOut_ok_shape {es : List Int} {idx : Option Nat}
    {t : TokenInfo} {amounts : List (String × String)}
    (h : getSingleAmountOut es idx t = .ok amounts) :
    ∃ v, amounts = [(t.address, v)] := by
  unfold getSingleAmountOut at h
  split at h
  · simp at h
  · exact ⟨_, by injection h with h2; rw [← h2]⟩

/-! ## Facts about the handler's control flow -/

theorem queryExit_pool_absent {env : SdkEnv} {pool : Pool} (params : ExitParams)
    (st : HandlerState) (h : env.findPool pool.id = .ok none) :
    queryExit env pool params st =
      (.error (poolNotFoundMsg pool.id), st, [.findPool pool.id]) := by
  simp only [queryExit, getSdkPool, h]

theorem queryExit_pool_throws {env : SdkEnv} {pool : Pool} {msg : String}
    (params : ExitParams) (st : HandlerState) (h : env.findPool pool.id = .error msg) :
    queryExit env pool params st =
      (.error (poolNotFoundMsg pool.id), st, [.findPool pool.id, .capture msg]) := by
  simp only [queryExit, getSdkPool, h]

theorem queryExit_build_throws_state {env : SdkEnv} {pool : Pool} {sp : SdkPool}
    {msg : String} (params : ExitParams) (st : HandlerState)
    (hfind : env.findPool pool.id = .ok (some sp))
    (hbuild : ∀ a b c d e, sp.buildExitExactBPTIn a b c d e = .error msg) :
    (queryExit env pool params st).2.1 = st := by
  simp only [queryExit, getSdkPool, hfind, setLastExitRes, hbuild]
  repeat first
  | rfl
  | split

theorem getSingleAmountOut_error {es : List Int} {idx : Option Nat} {t : TokenInfo}
    {e : String} (h : getSingleAmountOut es idx t = .error e) :
    e = "invalid BigNumber value" := by
  unfold getSingleAmountOut at h
  split at h
  · injection h with h2
    exact h2.symm
  · simp at h

theorem getSdkPool_no_send {env : SdkEnv} {pool : Pool} :
    ∀ c ∈ (getSdkPool env pool).2, c.isSend = false := by
  unfold getSdkPool
  split
  · intro c hc
    simp only [List.mem_singleton] at hc
    rw [hc]
    rfl
  · intro c hc
    simp only [List.mem_cons, List.mem_singleton, List.not_mem_nil, or_false] at hc
    rcases hc with rfl | rfl <;> rfl

theorem setLastExitRes_no_send {sp : SdkPool} {args : BuildArgs} {st : HandlerState} :
    ∀ c ∈ (setLastExitRes sp args st).2, c.isSend = false := by
  unfold setLastExitRes
  split
  · intro c hc
    simp only [List.mem_singleton] at hc
    rw [hc]
    rfl
  · intro c hc
    simp only [List.mem_cons, List.mem_singleton, List.not_mem_nil, or_false] at hc
    rcases hc with rfl | rfl <;> rfl

theorem getEvmPriceImpact_no_send {sp : SdkPool} {es : List Int} {b : Int} :
    ∀ c ∈ (getEvmPriceImpact sp es b).2, c.isSend = false := by
  unfold getEvmPriceImpact
  split
  · intro c hc
    simp only [List.mem_singleton] at hc
    rw [hc]
    rfl
  · intro c hc
    simp only [List.mem_cons, List.mem_singleton, List.not_mem_nil, or_false] at hc
    rcases hc with rfl | rfl <;> rfl

theorem queryExit_no_send {env : SdkEnv} {pool : Pool} {params : ExitParams}
    {st : HandlerState} :
    ∀ c ∈ (queryExit env pool params st).2.2, c.isSend = false := by
  intro c hc
  simp only [queryExit] at hc
  split at hc
  · exact getSdkPool_no_send c hc
  all_goals split at hc
  all_goals try exact getSdkPool_no_send c hc
  all_goals split at hc
  all_goals try exact getSdkPool_no_send c hc
  all_goals split at hc
  all_goals try exact getSdkPool_no_send c hc
  all_goals split at hc
  all_goals try
    (rcases List.mem_append.mp hc with h1 | h2
     · exact getSdkPool_no_send c h1
     · exact setLastExitRes_no_send c h2)
  all_goals split at hc
  all_goals try
    (rcases List.mem_append.mp hc with h1 | h2
     · rcases List.mem_append.mp h1 with h3 | h4
       · exact getSdkPool_no_send c h3
       · exact setLastExitRes_no_send c h4
     · exact getEvmPriceImpact_no_send c h2)
  all_goals split at hc
  all_goals try
    (rcases List.mem_append.mp hc with h1 | h2
     · rcases List.mem_append.mp h1 with h3 | h4
       · exact getSdkPool_no_send c h3
       · exact setLastExitRes_no_send c h4
     · exact getEvmPriceImpact_no_send c h2)
  all_goals try split at hc
  all_goals
    (rcases List.mem_append.mp hc with h1 | h2
     · rcases List.mem_append.mp h1 with h3 | h4
       · exact getSdkPool_no_send c h3
       · exact setLastExitRes_no_send c h4
     · exact getEvmPriceImpact_no_send c h2)

set_option maxHeartbeats 1000000 in
theorem queryExit_ok_inv {env : SdkEnv} {pool : Pool} {params : ExitParams}
    {st : HandlerState} {out : QueryOutput} {st2 : HandlerState} {tr : List SdkCall}
    (h : queryExit env pool params st = (.ok out, st2, tr)) :
    out.txReady = true ∧
    ∃ firstOut tokenOut res,
      params.amountsOut.head? = some firstOut ∧
      selectByAddress params.tokenInfo firstOut.address = some tokenOut ∧
      st2.lastExitRes = some res ∧
      ((params.amountsOut.length == 1) = true →
        ∃ amounts, getSingleAmountOut res.expectedAmountsOut
            (indexOfAddress (removeAddress pool.address res.attributes.exitPoolRequest.assets)
              (formatAddressForSor tokenOut.address)) tokenOut = .ok amounts ∧
          out.amountsOut = amounts) ∧
      ((params.amountsOut.length == 1) = false →
        out.amountsOut = getAmountsOut env.getAddress pool res.expectedAmountsOut
          (removeAddress pool.address res.attributes.exitPoolRequest.assets)) := by
  simp only [queryExit] at h
  split at h
  · simp at h
  next sdkPool hfound =>
  split at h
  · simp at h
  next firstOut hfirst =>
  split at h
  · simp at h
  next tokenOut htok =>
  split at h
  · simp at h
  next evmBptIn hparse =>
  split at h
  · simp at h
  next res hres =>
  split at h
  · simp at h
  next evmPriceImpact himp =>
  split at h
  · next hsingle =>
    rw [if_pos hsingle] at hres
    split at h
    · simp at h
    next amounts hamounts =>
    rw [Prod.mk.injEq, Prod.mk.injEq] at h
    obtain ⟨h1, h2, h3⟩ := h
    injection h1 with h1
    refine ⟨by rw [← h1], firstOut, tokenOut, res, hfirst, htok, ?_, ?_, ?_⟩
    · rw [← h2]
      exact hres
    · intro _
      exact ⟨amounts, hamounts, by rw [← h1]⟩
    · intro hcon
      rw [hsingle] at hcon
      exact absurd hcon (by simp)
  · next hsingle =>
    rw [if_neg hsingle] at hres
    rw [Prod.mk.injEq, Prod.mk.injEq] at h
    obtain ⟨h1, h2, h3⟩ := h
    injection h1 with h1
    refine ⟨by rw [← h1], firstOut, tokenOut, res, hfirst, htok, ?_, ?_, ?_⟩
    · rw [← h2]
      exact hres
    · intro hcon
      exact absurd hcon hsingle
    · intro _
      rw [← h1]

set_option maxHeartbeats 1000000 in
theorem queryExit_error_classify {env : SdkEnv} {pool : Pool} {params : ExitParams}
    {st : HandlerState} {e : String}
    (h : (queryExit env pool params st).1 = .error e) :
    e = poolNotFoundMsg pool.id ∨
    e = "TypeError: Cannot read properties of undefined" ∨
    (∃ a0, params.amountsOut.head? = some a0 ∧
      selectByAddress params.tokenInfo a0.address = none ∧
      e = tokenNotFoundMsg a0.address params.tokenInfo) ∨
    e = "invalid decimal value" ∨
    e = noExitConstructedMsg ∨
    e = priceImpactMsg ∨
    e = "invalid BigNumber value" := by
  simp only [queryExit] at h
  split at h
  · simp only [Except.error.injEq] at h
    exact Or.inl h.symm
  split at h
  · simp only [Except.error.injEq] at h
    exact Or.inr (Or.inl h.symm)
  next firstOut hfirst =>
  split at h
  · next hsel =>
    simp only [Except.error.injEq] at h
    exact Or.inr (Or.inr (Or.inl ⟨firstOut, hfirst, hsel, h.symm⟩))
  split at h
  · simp only [Except.error.injEq] at h
    exact Or.inr (Or.inr (Or.inr (Or.inl h.symm)))
  split at h
  · simp only [Except.error.injEq] at h
    exact Or.inr (Or.inr (Or.inr (Or.inr (Or.inl h.symm))))
  split at h
  · simp only [Except.error.injEq] at h
    exact Or.inr (Or.inr (Or.inr (Or.inr (Or.inr (Or.inl h.symm)))))
  split at h
  · split at h
    · next e2 herr =>
      simp only [Except.error.injEq] at h
      rw [← h, getSingleAmountOut_error herr]
      exact Or.inr (Or.inr (Or.inr (Or.inr (Or.inr (Or.inr rfl)))))
    · simp at h
  · simp at h

/-- C3 (amended): whenever no pending exit result exists after the query
that `exit` re-runs, `exit` fails — either with the generic
no-exit-constructed error, or by propagating the re-run query's own error
(as happens e.g. when the pool is not found) — and the transaction
submission service is never called. -/
theorem exit_no_pending {env : SdkEnv} {pool : Pool} {params : ExitParams}
    {st : HandlerState}
    (h : (exit env pool params st).2.1.lastExitRes = none) :
    (∃ e, (exit env pool params st).1 = .error e ∧
      (e = noExitConstructedMsg ∨ (queryExit env pool params st).1 = .error e)) ∧
    ∀ c ∈ (exit env pool params st).2.2, c.isSend = false := by
  rcases hq : queryExit env pool params st with ⟨r, st1, t1⟩
  have hnos : ∀ c ∈ t1, c.isSend = false := by
    have h2 := @queryExit_no_send env pool params st
    rw [hq] at h2
    exact h2
  cases r with
  | error e =>
    have hx : exit env pool params st = (.error e, st1, t1) := by
      simp only [exit, hq]
    rw [hx]
    exact ⟨⟨e, rfl, Or.inr rfl⟩, hnos⟩
  | ok out =>
    rcases hres : st1.lastExitRes with _ | res
    · have hx : exit env pool params st = (.error noExitConstructedMsg, st1, t1) := by
        simp only [exit, hq, hres]
      rw [hx]
      exact ⟨⟨_, rfl, Or.inl rfl⟩, hnos⟩
    · exfalso
      have hx : (exit env pool params st).2.1 = st1 := by
        simp only [exit, hq, hres]
        split <;> rfl
      rw [hx, hres] at h
      simp at h

/-! ## First characters of the error messages -/

theorem ne_of_data_head_ne {s t : String} (h : s.data.head? ≠ t.data.head?) : s ≠ t :=
  fun hc => h (by rw [hc])

theorem head_data_append_left {s t : String} {c : Char} (h : s.data.head? = some c) :
    (s ++ t).data.head? = some c := by
  rw [String.data_append]
  cases hs : s.data with
  | nil => rw [hs] at h; simp at h
  | cons a l =>
    rw [hs] at h
    simp only [List.head?_cons, Option.some.injEq] at h
    simp [h]

theorem tokenNotFoundMsg_head (a : String) (info : List (String × TokenInfo)) :
    (tokenNotFoundMsg a info).data.head? = some 'C' := by
  unfold tokenNotFoundMsg
  exact head_data_append_left (head_data_append_left (head_data_append_left rfl))

theorem poolNotFoundMsg_head (pid : String) :
    (poolNotFoundMsg pid).data.head? = some 'F' := by
  unfold poolNotFoundMsg
  exact head_data_append_left rfl

theorem ne_of_data_getElem?_ne {s t : String} (n : Nat)
    (h : s.data[n]? ≠ t.data[n]?) : s ≠ t :=
  fun hc => h (by rw [hc])

theorem data_getElem?_append_left {p x : String} {n : Nat} (hn : n < p.data.length) :
    (p ++ x).data[n]? = p.data[n]? := by
  rw [String.data_append]
  exact List.getElem?_append_left hn

theorem poolNotFoundMsg_ne_noExitConstructedMsg (pid : String) :
    poolNotFoundMsg pid ≠ noExitConstructedMsg := by
  apply ne_of_data_getElem?_ne 10
  unfold poolNotFoundMsg
  rw [data_getElem?_append_left (by decide)]
  decide

/-! ## The claims -/

/-- C1 (counterexample): on an instance holding a result from an earlier
successful `queryExit`, a later `queryExit` whose SDK build call throws
(witnessed by the `capture` event in its trace) leaves the stale result in
place — the pending result is *not* overwritten/unset — and a subsequent
`exit` on the same instance happily submits the stale transaction. -/
theorem stale_exit_result_survives_failed_build :
    (queryExit envBuildThrows poolOne paramsOne
        (queryExit envOk poolOne paramsOne st0).2.1).2.1.lastExitRes = some resOne ∧
    SdkCall.capture "SDK: buildExitExactBPTIn failed" ∈
      (queryExit envBuildThrows poolOne paramsOne
        (queryExit envOk poolOne paramsOne st0).2.1).2.2 ∧
    (exit envBuildThrows poolOne paramsOne
        (queryExit envOk poolOne paramsOne st0).2.1).1 = .ok { hash := "0xtxhash" } :=
  ⟨rfl, by decide, rfl⟩

/-- C1 (amended): when the SDK transaction-building call throws, the
pending exit result is left *unchanged* rather than unset: on a fresh
instance it stays unset, but a stale result from an earlier successful
query remains available to a subsequent `exit()`. -/
theorem queryExit_failed_build_leaves_pending_unchanged {env : SdkEnv} {pool : Pool}
    {sp : SdkPool} {msg : String} (params : ExitParams) (st : HandlerState)
    (hfind : env.findPool pool.id = .ok (some sp))
    (hbuild : ∀ a b c d e, sp.buildExitExactBPTIn a b c d e = .error msg) :
    (queryExit env pool params st).2.1.lastExitRes = st.lastExitRes := by
  rw [queryExit_build_throws_state params st hfind hbuild]

/-- Witness for C1's amended theorem at a concrete input. -/
theorem queryExit_failed_build_leaves_pending_unchanged_witness :
    (queryExit envBuildThrows poolOne paramsOne st0).2.1.lastExitRes = st0.lastExitRes :=
  queryExit_failed_build_leaves_pending_unchanged paramsOne st0 rfl
    (fun _ _ _ _ _ => rfl)

/-- C2: when the pool registry yields no handle for the handler's pool id,
`queryExit` fails with the pool-not-found error and the SDK transaction
builder is never invoked during that call (no `build` event in the trace). -/
theorem queryExit_pool_not_found_no_build {env : SdkEnv} {pool : Pool}
    (params : ExitParams) (st : HandlerState)
    (h : env.findPool pool.id = .ok none) :
    (queryExit env pool params st).1 = .error (poolNotFoundMsg pool.id) ∧
    ∀ c ∈ (queryExit env pool params st).2.2, c.isBuild = false := by
  rw [queryExit_pool_absent params st h]
  refine ⟨rfl, ?_⟩
  intro c hc
  simp only [List.mem_singleton] at hc
  rw [hc]
  rfl

/-- Witness for C2 at a concrete input. -/
theorem queryExit_pool_not_found_no_build_witness :
    (queryExit envNoPool poolOne paramsOne st0).1 = .error (poolNotFoundMsg poolOne.id) ∧
    ∀ c ∈ (queryExit envNoPool poolOne paramsOne st0).2.2, c.isBuild = false :=
  queryExit_pool_not_found_no_build paramsOne st0 rfl

/-- C3 (counterexample): on a fresh instance whose pool registry yields no
handle, no pending exit result exists after the query that `exit` re-runs,
yet `exit` fails with the pool-not-found error, not with the
no-exit-constructed error. -/
theorem exit_no_pending_not_noExitConstructed :
    (exit envNoPool poolOne paramsOne st0).2.1.lastExitRes = none ∧
    (exit envNoPool poolOne paramsOne st0).1 = .error (poolNotFoundMsg "pool1") ∧
    poolNotFoundMsg "pool1" ≠ noExitConstructedMsg :=
  ⟨rfl, rfl, by decide⟩

/-- Witness for C3's amended theorem (`exit_no_pending`) at a concrete
input. -/
theorem exit_no_pending_witness :
    (∃ e, (exit envNoPool poolOne paramsOne st0).1 = .error e ∧
      (e = noExitConstructedMsg ∨
        (queryExit envNoPool poolOne paramsOne st0).1 = .error e)) ∧
    ∀ c ∈ (exit envNoPool poolOne paramsOne st0).2.2, c.isSend = false :=
  exit_no_pending rfl

/-- C4 (counterexample): a successful single-output `queryExit` keys its
single amounts-map entry by the address exactly as stored in the provided
token map (here the lowercase `addrA`), not by its canonical checksummed
spelling (`getAddress addrA = addrAChk`), even though the requested output
used yet another spelling. -/
theorem single_exit_key_not_checksummed :
    (queryExit envChk poolOne paramsUp st0).1 =
      .ok { amountsOut := [(addrA, "5.0")], priceImpact := "0.0", txReady := true } ∧
    envChk.getAddress addrA = addrAChk ∧ addrA ≠ addrAChk :=
  ⟨rfl, rfl, by decide⟩

/-- C4 (amended): for every single-output exit, a successful `queryExit`
returns an amounts map with exactly one entry, keyed by the requested
token's address *as recorded in the provided token map* (the single-output
branch does not re-checksum it). -/
theorem queryExit_single_key_is_token_map_address {env : SdkEnv} {pool : Pool}
    {params : ExitParams} {st : HandlerState} {out : QueryOutput} {st2 : HandlerState}
    {tr : List SdkCall} {a0 : AmountOut}
    (h : queryExit env pool params st = (.ok out, st2, tr))
    (hhead : params.amountsOut.head? = some a0)
    (hsingle : params.amountsOut.length = 1) :
    ∃ t v, selectByAddress params.tokenInfo a0.address = some t ∧
      out.amountsOut = [(t.address, v)] := by
  obtain ⟨-, firstOut, tokenOut, res, hfirst, htok, -, hsing, -⟩ := queryExit_ok_inv h
  have hfa : firstOut = a0 := by
    rw [hhead] at hfirst
    injection hfirst with h2
    exact h2.symm
  obtain ⟨amounts, hok, hout⟩ := hsing (by simp [hsingle])
  obtain ⟨v, hv⟩ := getSingleAmountOut_ok_shape hok
  refine ⟨tokenOut, v, ?_, by rw [hout, hv]⟩
  rw [← hfa]
  exact htok

/-- Witness for C4's amended theorem at a concrete input. -/
theorem queryExit_single_key_is_token_map_address_witness :
    ∃ t v, selectByAddress paramsOne.tokenInfo
        ({ address := addrA, value := "0" } : AmountOut).address = some t ∧
      ({ amountsOut := [(addrA, "5.0")], priceImpact := "0.0",
         txReady := true } : QueryOutput).amountsOut = [(t.address, v)] :=
  @queryExit_single_key_is_token_map_address envOk poolOne paramsOne st0
    ⟨[(addrA, "5.0")], "0.0", true⟩ ⟨some resOne⟩
    [SdkCall.findPool "pool1",
      SdkCall.build "0xme" 10000000000000000000 "50" false (some addrA),
      SdkCall.calcImpact [5000000] 10000000000000000000]
    ⟨addrA, "0"⟩ rfl rfl rfl

/-- C5: for every multi-output exit, when the SDK build response is
well-formed against the pool — its asset list, after removing the pool's
own (BPT) address, is exactly the pool's token address list, with one raw
amount per token — and the pool's recorded token addresses are canonical
for the checksummer and pairwise distinct (also up to case), the key set
of the amounts map of a successful `queryExit` equals the pool's non-BPT
token addresses, order-independently. -/
theorem queryExit_multi_keys {env : SdkEnv} {pool : Pool} {params : ExitParams}
    {st : HandlerState} {out : QueryOutput} {st2 : HandlerState} {tr : List SdkCall}
    {res : ExitExactInResponse}
    (h : queryExit env pool params st = (.ok out, st2, tr))
    (hmulti : ¬ params.amountsOut.length = 1)
    (hres : st2.lastExitRes = some res)
    (hassets : removeAddress pool.address res.attributes.exitPoolRequest.assets =
      (flatTokenTree pool).map PoolToken.address)
    (hlen : res.expectedAmountsOut.length = (flatTokenTree pool).length)
    (hfix : ∀ t ∈ flatTokenTree pool, env.getAddress t.address = t.address)
    (hcd : ∀ t ∈ flatTokenTree pool, ∀ u ∈ flatTokenTree pool,
      isSameAddress u.address t.address = true → u.address = t.address)
    (hnd : ((flatTokenTree pool).map PoolToken.address).Nodup) :
    ∀ a, a ∈ out.amountsOut.map Prod.fst ↔
      a ∈ (flatTokenTree pool).map PoolToken.address := by
  obtain ⟨-, firstOut, tokenOut, res', hfirst, htok, hres', hsing, hmul⟩ := queryExit_ok_inv h
  have hrr : res' = res := by
    rw [hres'] at hres
    injection hres with h2
  have hout := hmul (by simp [hmulti])
  rw [hout, hrr, hassets,
    getAmountsOut_keys env.getAddress pool res.expectedAmountsOut hfix hcd hnd hlen]
  intro a
  exact Iff.rfl

/-- Witness for C5 at a concrete two-token input. -/
theorem queryExit_multi_keys_witness :
    (addrA ∈ ((⟨[(addrA, "5.0"), (addrB, "7.0")], "0.0", true⟩ :
        QueryOutput)).amountsOut.map Prod.fst ↔
      addrA ∈ (flatTokenTree poolTwo).map PoolToken.address) :=
  @queryExit_multi_keys envTwo poolTwo paramsTwo st0
    ⟨[(addrA, "5.0"), (addrB, "7.0")], "0.0", true⟩ ⟨some resTwo⟩
    [SdkCall.findPool "pool2",
      SdkCall.build "0xme" 10000000000000000000 "50" false none,
      SdkCall.calcImpact [5000000, 7000000000000000000] 10000000000000000000]
    resTwo
    rfl (by decide) rfl rfl rfl (fun t _ => rfl) (by decide) (by decide) addrA

/-- C6 (counterexample): when the pool-registry lookup itself throws, the
error is caught and reported (`capture` in the trace), but `queryExit`
then fails right away with the pool-not-found error — the failure is not
deferred and surfaced as the generic construction error. -/
theorem find_throws_surfaces_pool_not_found :
    (queryExit envFindThrows poolOne paramsOne st0).1 =
      .error (poolNotFoundMsg "pool1") ∧
    SdkCall.capture "SDK: network error" ∈
      (queryExit envFindThrows poolOne paramsOne st0).2.2 ∧
    poolNotFoundMsg "pool1" ≠ noExitConstructedMsg :=
  ⟨rfl, by decide, by decide⟩

/-- C6 (amended): when the pool-registry lookup throws, the error is
caught and reported to the observability sink, the handle is treated as
absent and the pending result is left untouched; the failure then
surfaces immediately as the pool-not-found error (the same error as for
an absent pool), which is distinct from the generic construction error. -/
theorem queryExit_find_throws_reported {env : SdkEnv} {pool : Pool} {msg : String}
    (params : ExitParams) (st : HandlerState)
    (h : env.findPool pool.id = .error msg) :
    queryExit env pool params st =
      (.error (poolNotFoundMsg pool.id), st, [.findPool pool.id, .capture msg]) ∧
    poolNotFoundMsg pool.id ≠ noExitConstructedMsg :=
  ⟨queryExit_pool_throws params st h, poolNotFoundMsg_ne_noExitConstructedMsg pool.id⟩

/-- Witness for C6's amended theorem at a concrete input. -/
theorem queryExit_find_throws_reported_witness :
    queryExit envFindThrows poolOne paramsOne st0 =
      (.error (poolNotFoundMsg poolOne.id), st0,
       [.findPool poolOne.id, .capture "SDK: network error"]) ∧
    poolNotFoundMsg poolOne.id ≠ noExitConstructedMsg :=
  queryExit_find_throws_reported paramsOne st0 rfl

/-- C7 (counterexample): `"10"` is accepted by the fixed-point conversion
at 18 decimals, but converting back yields `"10.0"`, not the original
string — the string-level round trip fails off canonical form. -/
theorem parse_format_not_string_identity :
    parseFixed "10" 18 = some (10 * 10 ^ 18 : Int) ∧
    formatFixed (10 * 10 ^ 18 : Int) 18 = "10.0" ∧ ("10.0" : String) ≠ "10" :=
  ⟨by decide, by decide, by decide⟩

/-- C7 (amended): for every decimal-string BPT amount accepted by the
fixed-point conversion at 18 decimals, converting the parsed value back
to a decimal string and re-parsing it at the same precision yields the
same fixed-point value — formatting is a right inverse of parsing on
values, though the exact original string is recovered only when it is
already in canonical form. -/
theorem parse_format_value_roundtrip (s : String) (v : Int)
    (_h : parseFixed s 18 = some v) :
    parseFixed (formatFixed v 18) 18 = some v :=
  parseFixed_formatFixed v 18

/-- Witness for C7's amended theorem at the concrete input `"10"`. -/
theorem parse_format_value_roundtrip_witness :
    parseFixed (formatFixed (10 * 10 ^ 18 : Int) 18) 18 = some (10 * 10 ^ 18 : Int) :=
  parse_format_value_roundtrip "10" (10 * 10 ^ 18 : Int) (by decide)

/-- C8: at the concrete input where BPT-in is `"10.0"` and the single
requested output token has 6 decimals and the SDK returns the raw amount
`5000000` for it, `queryExit` succeeds and returns the normalized amount
`"5.0"` keyed by that token's address. -/
theorem queryExit_six_decimals_example :
    (queryExit envOk poolOne paramsOne st0).1 =
      .ok { amountsOut := [(addrA, "5.0")], priceImpact := "0.0", txReady := true } := rfl

/-- C9: every `QueryOutput` returned by a successful `queryExit` has its
transaction-readiness flag set to `true`, in both the single-output and
the multi-output branch. -/
theorem queryExit_txReady {env : SdkEnv} {pool : Pool} {params : ExitParams}
    {st : HandlerState} {out : QueryOutput} {st2 : HandlerState} {tr : List SdkCall}
    (h : queryExit env pool params st = (.ok out, st2, tr)) : out.txReady = true :=
  (queryExit_ok_inv h).1

/-- Witness for C9 at a concrete input. -/
theorem queryExit_txReady_witness :
    ({ amountsOut := [(addrA, "5.0")], priceImpact := "0.0",
       txReady := true } : QueryOutput).txReady = true :=
  @queryExit_txReady envOk poolOne paramsOne st0
    ⟨[(addrA, "5.0")], "0.0", true⟩ ⟨some resOne⟩
    [SdkCall.findPool "pool1",
      SdkCall.build "0xme" 10000000000000000000 "50" false (some addrA),
      SdkCall.calcImpact [5000000] 10000000000000000000] rfl

/-- C10: `queryExit` validates only the first requested output token
against the provided token map: given that the registry yields a pool
handle, the token-not-found error is raised exactly when the first
requested output is missing from the token map; a missing entry for any
other requested output never triggers that error. -/
theorem queryExit_validates_only_first_output {env : SdkEnv} {pool : Pool}
    {params : ExitParams} {st : HandlerState} {sp : SdkPool} {a0 : AmountOut}
    (hfind : env.findPool pool.id = .ok (some sp))
    (hhead : params.amountsOut.head? = some a0)
    (_hmulti : 1 < params.amountsOut.length) :
    ((queryExit env pool params st).1 =
        .error (tokenNotFoundMsg a0.address params.tokenInfo) ↔
      selectByAddress params.tokenInfo a0.address = none) := by
  constructor
  · intro h
    rcases queryExit_error_classify h with h1 | h1 | ⟨a0', hh', hs', he'⟩ | h1 | h1 | h1 | h1
    · exact absurd h1 (ne_of_data_head_ne
        (by rw [tokenNotFoundMsg_head, poolNotFoundMsg_head]; decide))
    · exact absurd h1 (ne_of_data_head_ne (by rw [tokenNotFoundMsg_head]; decide))
    · have ha : a0' = a0 := by
        rw [hhead] at hh'
        injection hh' with h2
        exact h2.symm
      rw [← ha]
      exact hs'
    · exact absurd h1 (ne_of_data_head_ne (by rw [tokenNotFoundMsg_head]; decide))
    · exact absurd h1 (ne_of_data_head_ne (by rw [tokenNotFoundMsg_head]; decide))
    · exact absurd h1 (ne_of_data_head_ne (by rw [tokenNotFoundMsg_head]; decide))
    · exact absurd h1 (ne_of_data_head_ne (by rw [tokenNotFoundMsg_head]; decide))
  · intro hsel
    simp only [queryExit, getSdkPool, hfind, hhead, hsel]

/-- Witness for C10 at a concrete input whose first requested output is
absent from the token map while the second is present. -/
theorem queryExit_validates_only_first_output_witness :
    ((queryExit envOk poolTwo paramsMissingFirst st0).1 =
        .error (tokenNotFoundMsg ({ address := addrMissing, value := "0" } : AmountOut).address
          paramsMissingFirst.tokenInfo) ↔
      selectByAddress paramsMissingFirst.tokenInfo
        ({ address := addrMissing, value := "0" } : AmountOut).address = none) :=
  @queryExit_validates_only_first_output envOk poolTwo paramsMissingFirst st0
    sdkPoolOk ⟨addrMissing, "0"⟩ rfl rfl (by decide)
